import Mathlib

/-!
Shallow embedding of the query-parameter processing, pagination and routing
logic of the trybase-twitter REST API (Hono + zod + Prisma service).

Sources embedded:
- src/api/validations/likes.ts (schemas, processLikesQueryParams)
- src/api/validations/followers.ts (processFollowersQueryParams)
- src/api/routes/hashtags.ts (list meta computation, get-by-id handler,
  search handler pagination, route registration order)
- src/unnamed/part_000 (likes router registrations, search handler)

JavaScript numeric semantics needed by this code are modelled explicitly:
a parsed query number is either a proper integer, NaN, or undefined, and
the truthiness tests of the source are reproduced on that type.
-/

namespace Trybase

/-- Result of a JavaScript numeric expression in this code base: either
`undefined`, `NaN` (a failed parse), or an integer value.  `parseInt`
never produces fractional values, so integers suffice. -/
inductive JsNum where
  | undef
  | nan
  | int (n : Int)
deriving DecidableEq, Repr

/-- Value of the longest leading run of decimal digits, `none` when the
run is empty.  Models the digit-consuming core of JavaScript
`parseInt(s, 10)`. -/
def leadDigits (cs : List Char) : Option Nat :=
  let ds := cs.takeWhile Char.isDigit
  if ds.isEmpty then none
  else some (ds.foldl (fun a c => a * 10 + (c.toNat - 48)) 0)

/-- Model of JavaScript `parseInt(s, 10)`: skip leading whitespace, accept
an optional sign, then read the longest digit run; `none` models `NaN`.
(Precision loss of very large doubles is idealised away; no claim depends
on it.) -/
def parseIntJS (s : String) : Option Int :=
  let t := s.data.dropWhile Char.isWhitespace
  match t with
  | [] => none
  | c :: rest =>
    if c = '-' then (leadDigits rest).map (fun n => -(n : Int))
    else if c = '+' then (leadDigits rest).map (fun n => (n : Int))
    else (leadDigits (c :: rest)).map (fun n => (n : Int))

/-- The regular expression guard of the zod schemas for `page` and
`limit`: the string is non-empty and consists of digits only. -/
def isDigitString (s : String) : Bool :=
  !s.data.isEmpty && s.data.all (fun c => c.isDigit)

/-- zod refinement on an optional `page`/`limit` field:
`val === undefined OR /^\d+$/.test(val)`. -/
def digitRefineOk (v : Option String) : Bool :=
  match v with
  | none => true
  | some s => isDigitString s

/-- Models `query.page ? parseInt(query.page, 10) : undefined`:
an absent or empty string is falsy and yields `undefined`; otherwise the
string is parsed, possibly to `NaN`. -/
def toNum (s : Option String) : JsNum :=
  match s with
  | none => .undef
  | some t =>
    if t = "" then .undef
    else
      match parseIntJS t with
      | none => .nan
      | some n => .int n

/-- Models `limit && limit > 0 && limit <= 100 ? limit : 10` from
processLikesQueryParams (likes.ts line 78).  `undefined`, `NaN` and `0`
are falsy and give the default 10. -/
def takeOf (limit : JsNum) : Int :=
  match limit with
  | .int n => if n ≠ 0 ∧ 0 < n ∧ n ≤ 100 then n else 10
  | _ => 10

/-- Models `page && page > 0 ? (page - 1) * take : 0` from
processLikesQueryParams (likes.ts line 79). -/
def skipOf (page : JsNum) (take : Int) : Int :=
  match page with
  | .int p => if p ≠ 0 ∧ 0 < p then (p - 1) * take else 0
  | _ => 0

/-- One optional numeric field check of `internalQueryParamsSchema`:
`z.number().int().min(lo)[.max(hi)].optional()`.  `undefined` passes the
optional, `NaN` is rejected by `z.number()`, an integer must respect the
bounds (`.int()` always holds for our integer model). -/
def zOptIntOk (lo : Int) (hi : Option Int) (v : JsNum) : Bool :=
  match v with
  | .undef => true
  | .nan => false
  | .int n =>
    decide (lo ≤ n) &&
      (match hi with
       | none => true
       | some h => decide (n ≤ h))

/-- Models `internalQueryParamsSchema.safeParse({skip, take, page, limit, name,
description}).success` (likes.ts lines 58-65 and 82-89): the string
fields always pass `z.string().optional()`. -/
def internalParamsOk (skip take : Int) (page limit : JsNum) : Bool :=
  zOptIntOk 0 none (.int skip) &&
  zOptIntOk 1 (some 100) (.int take) &&
  zOptIntOk 1 none page &&
  zOptIntOk 1 (some 100) limit

/-- A Prisma `{ contains, mode: 'insensitive' }` filter condition. -/
structure ContainsCond where
  contains : String
  insensitive : Bool
deriving DecidableEq, Repr

/-- Input to processLikesQueryParams: the fields of `likesQuerySchema`,
each an optional string taken from the URL query. -/
structure LikesQuery where
  page : Option String
  limit : Option String
  name : Option String
  description : Option String
deriving DecidableEq, Repr

/-- Output shape `ProcessedLikesQueryParams`: the dynamic `where` record
is modelled as an association list in insertion order. -/
structure ProcessedQueryParams where
  whereClause : List (String × ContainsCond)
  skip : Int
  take : Int
deriving DecidableEq, Repr

/-- The `where` record built by processLikesQueryParams (likes.ts lines
99-105): a truthy (present, non-empty) `name`/`description` adds a
case-insensitive contains condition; otherwise no key is added. -/
def likesWhereOf (name description : Option String) : List (String × ContainsCond) :=
  (match name with
   | some n => if n ≠ "" then [("name", ⟨n, true⟩)] else []
   | none => []) ++
  (match description with
   | some d => if d ≠ "" then [("description", ⟨d, true⟩)] else []
   | none => [])

/-- The internal re-validation outcome of processLikesQueryParams for a
given input, with the derived values of lines 76-79 substituted in. -/
def likesRevalidOk (q : LikesQuery) : Bool :=
  let page := toNum q.page
  let limit := toNum q.limit
  let take := takeOf limit
  let skip := skipOf page take
  internalParamsOk skip take page limit

/-- processLikesQueryParams (likes.ts lines 73-109): derive page/limit by
parsing, compute take/skip with truthiness defaults, re-validate through
`internalQueryParamsSchema`, and on failure fall back to
`{where: {}, skip: 0, take: 10}`. -/
def processLikesQueryParams (q : LikesQuery) : ProcessedQueryParams :=
  if likesRevalidOk q then
    { whereClause := likesWhereOf q.name q.description,
      skip := skipOf (toNum q.page) (takeOf (toNum q.limit)),
      take := takeOf (toNum q.limit) }
  else
    { whereClause := [], skip := 0, take := 10 }

/-- Input to processFollowersQueryParams: fields of
`followersQuerySchema` (followers.ts lines 9-24), identical in shape to
the likes schema. -/
structure FollowersQuery where
  page : Option String
  limit : Option String
  name : Option String
  description : Option String
deriving DecidableEq, Repr

/-- The internal re-validation outcome of processFollowersQueryParams
(followers.ts lines 58-65, 82-89), textually identical to the likes
version. -/
def followersRevalidOk (q : FollowersQuery) : Bool :=
  let page := toNum q.page
  let limit := toNum q.limit
  let take := takeOf limit
  let skip := skipOf page take
  internalParamsOk skip take page limit

/-- processFollowersQueryParams (followers.ts lines 73-112), textually
identical to processLikesQueryParams. -/
def processFollowersQueryParams (q : FollowersQuery) : ProcessedQueryParams :=
  if followersRevalidOk q then
    { whereClause := likesWhereOf q.name q.description,
      skip := skipOf (toNum q.page) (takeOf (toNum q.limit)),
      take := takeOf (toNum q.limit) }
  else
    { whereClause := [], skip := 0, take := 10 }

/-! ### Search handler pagination (hashtags.ts lines 176-232, and the
identical blocks of the posts/likes/comments routers) -/

/-- Models `validatedQuery.page ? parseInt(validatedQuery.page, 10) : 1`
(hashtags.ts line 182). -/
def searchPageOf (p : Option String) : JsNum :=
  match p with
  | none => .int 1
  | some t =>
    if t = "" then .int 1
    else
      match parseIntJS t with
      | none => .nan
      | some n => .int n

/-- Models `validatedQuery.limit ? parseInt(validatedQuery.limit, 10) : 10`
(hashtags.ts lines 183-185). -/
def searchLimitOf (l : Option String) : JsNum :=
  match l with
  | none => .int 10
  | some t =>
    if t = "" then .int 10
    else
      match parseIntJS t with
      | none => .nan
      | some n => .int n

/-- JavaScript subtraction on parsed values: NaN (or undefined, which
coerces to NaN) propagates. -/
def jsSub (a b : JsNum) : JsNum :=
  match a, b with
  | .int x, .int y => .int (x - y)
  | _, _ => .nan

/-- JavaScript multiplication on parsed values, NaN propagating. -/
def jsMul (a b : JsNum) : JsNum :=
  match a, b with
  | .int x, .int y => .int (x * y)
  | _, _ => .nan

/-- Models `Math.max` on two parsed values (NaN propagates). -/
def jsMax (a b : JsNum) : JsNum :=
  match a, b with
  | .int x, .int y => .int (max x y)
  | _, _ => .nan

/-- Models `Math.min` on two parsed values (NaN propagates). -/
def jsMin (a b : JsNum) : JsNum :=
  match a, b with
  | .int x, .int y => .int (min x y)
  | _, _ => .nan

/-- Models `Math.min(Math.max(limit, 1), 100)` (hashtags.ts line 186). -/
def searchTakeOf (l : Option String) : JsNum :=
  jsMin (jsMax (searchLimitOf l) (.int 1)) (.int 100)

/-- Models `skip = (page - 1) * take` (hashtags.ts line 187). -/
def searchSkipOf (p l : Option String) : JsNum :=
  jsMul (jsSub (searchPageOf p) (.int 1)) (searchTakeOf l)

/-- Raw query parameters of a search request before validation
(`hashtagsSearchQuerySchema` input). -/
structure SearchQueryRaw where
  query : Option String
  page : Option String
  limit : Option String
deriving DecidableEq, Repr

/-- Models `hashtagsSearchQuerySchema` / `likesSearchQuerySchema` acceptance
(likes.ts lines 27-46): `query` must be a present string of length at
least 1, `page` and `limit` must be absent or digit strings. -/
def searchSchemaOk (r : SearchQueryRaw) : Bool :=
  (match r.query with
   | none => false
   | some s => decide (1 ≤ s.length)) &&
  digitRefineOk r.page &&
  digitRefineOk r.limit

/-- What a search request turns into after the validator middleware:
either a 400 validation response produced before the handler runs, or
the `findMany` storage call the handler issues with the computed skip
and take (hashtags.ts lines 176-208). -/
inductive SearchRouteOutcome where
  | badRequest (status : Nat)
  | storageFindMany (skip take : JsNum) (query : String)
deriving DecidableEq, Repr

/-- The GET /hashtags/search route: `zValidator('query', ...)` rejects a
schema-invalid request with HTTP 400 before the handler (and hence any
storage access) runs; otherwise the handler computes the pagination and
issues the storage query. -/
def hashtagsSearchRoute (r : SearchQueryRaw) : SearchRouteOutcome :=
  if searchSchemaOk r then
    match r.query with
    | some qs => .storageFindMany (searchSkipOf r.page r.limit) (searchTakeOf r.limit) qs
    | none => .badRequest 400
  else .badRequest 400

/-! ### List response meta (hashtags.ts lines 33-42) -/

/-- Models `Math.floor(a / b)` for integer operands, exact for every sign when
`b` is nonzero (floor division). -/
def mathFloorDiv (a b : Int) : Int := Int.fdiv a b

/-- Models `Math.ceil(a / b)` for integer operands and nonzero `b`. -/
def mathCeilDiv (a b : Int) : Int := -(Int.fdiv (-a) b)

/-- The `meta` object of the list response envelope (hashtags.ts lines
35-41): `page = Math.floor(skip / take) + 1`,
`totalPages = Math.ceil(total / take)`. -/
structure ListMeta where
  total : Int
  skip : Int
  take : Int
  page : Int
  totalPages : Int
deriving DecidableEq, Repr

/-- Builds the list handler response meta from the count result and the
processed skip/take. -/
def listMetaOf (total skip take : Int) : ListMeta :=
  { total := total, skip := skip, take := take,
    page := mathFloorDiv skip take + 1,
    totalPages := mathCeilDiv total take }

/-! ### Get-by-id handler (hashtags.ts lines 54-83) -/

/-- Outcome of the `prisma.hashtags.findUnique` call as seen by the
handler: a record, no record, or a thrown error. -/
inductive DbFindResult where
  | found (record : String)
  | missing
  | raisedError (message : String)
deriving DecidableEq, Repr

/-- Response body of the get-by-id handler. -/
inductive GetByIdBody where
  | record (r : String)
  | notFoundError (msg : String)
  | internalError (msg details : String)
deriving DecidableEq, Repr

/-- GET /hashtags/:id handler: the Hono context status starts at 200;
the not-found branch calls `c.status(404)`; the catch branch (lines
74-82) returns the error body WITHOUT calling `c.status`, so the
response keeps the default 200 status. -/
def hashtagsGetById (db : DbFindResult) : Nat × GetByIdBody :=
  match db with
  | .found rec => (200, .record rec)
  | .missing => (404, .notFoundError "hashtags not found")
  | .raisedError m => (200, .internalError "Failed to retrieve item" m)

/-! ### Route registration and dispatch (hashtags.ts, part_000) -/

/-- HTTP methods used by the routers. -/
inductive HttpMethod where
  | get | post | put | delete
deriving DecidableEq, Repr

/-- A route path pattern of one segment under the entity prefix:
`'/'`, `'/:name'`, or a literal `'/segment'`. -/
inductive RoutePattern where
  | root
  | paramSeg (name : String)
  | litSeg (s : String)
deriving DecidableEq, Repr

/-- Identifies which handler a route entry carries. -/
inductive HandlerTag where
  | listAll | getById | createOne | updateOne | deleteOne | searchOp
deriving DecidableEq, Repr

/-- One registered route. -/
structure RouteEntry where
  method : HttpMethod
  pattern : RoutePattern
  handler : HandlerTag
deriving DecidableEq, Repr

/-- The hashtags router registrations in source order (hashtags.ts:
get '/' line 16, get '/:id' line 54, post '/' line 85, put '/:id'
line 122, delete '/:id' line 152, get '/search' line 176). -/
def hashtagsRouteList : List RouteEntry :=
  [⟨.get, .root, .listAll⟩,
   ⟨.get, .paramSeg "id", .getById⟩,
   ⟨.post, .root, .createOne⟩,
   ⟨.put, .paramSeg "id", .updateOne⟩,
   ⟨.delete, .paramSeg "id", .deleteOne⟩,
   ⟨.get, .litSeg "search", .searchOp⟩]

/-- The likes router registrations in source order (part_000: get '/'
line 250, get '/:id' line 288, post '/' line 319, put '/:id' line 356,
delete '/:id' line 386, get '/search' line 410). -/
def likesRouteList : List RouteEntry :=
  [⟨.get, .root, .listAll⟩,
   ⟨.get, .paramSeg "id", .getById⟩,
   ⟨.post, .root, .createOne⟩,
   ⟨.put, .paramSeg "id", .updateOne⟩,
   ⟨.delete, .paramSeg "id", .deleteOne⟩,
   ⟨.get, .litSeg "search", .searchOp⟩]

/-- Whether a pattern matches a request path (`none` = the bare prefix
`'/'`, `some seg` = one extra path segment). -/
def segMatches (pat : RoutePattern) (path : Option String) : Bool :=
  match pat, path with
  | .root, none => true
  | .paramSeg _, some _ => true
  | .litSeg s, some t => s = t
  | _, _ => false

/-- In-registration-order dispatch: the first route whose method and
pattern match wins; a parameter pattern captures the path segment. -/
def dispatchFirst (routes : List RouteEntry) (m : HttpMethod)
    (path : Option String) : Option (HandlerTag × Option String) :=
  match routes with
  | [] => none
  | r :: rest =>
    if r.method = m ∧ segMatches r.pattern path = true then
      some (r.handler, match r.pattern with | .paramSeg _ => path | _ => none)
    else dispatchFirst rest m path

end Trybase

namespace Trybase

lemma digit_not_ws (c : Char) (h : c.isDigit = true) : c.isWhitespace = false := by
  simp only [Char.isWhitespace, Bool.or_eq_false_iff, decide_eq_false_iff_not]
  refine ⟨⟨⟨?_, ?_⟩, ?_⟩, ?_⟩ <;> rintro rfl <;> simp [Char.isDigit] at h

lemma parseIntJS_digits (s : String) (h : isDigitString s = true) :
    ∃ n : Nat, parseIntJS s = some (n : Int) := by
  unfold isDigitString at h
  rw [Bool.and_eq_true] at h
  obtain ⟨hne, hall⟩ := h
  unfold parseIntJS
  cases hd : s.data with
  | nil => rw [hd] at hne; simp at hne
  | cons c rest =>
    rw [hd] at hall
    rw [List.all_cons, Bool.and_eq_true] at hall
    obtain ⟨hc, hrest⟩ := hall
    have hw : c.isWhitespace = false := digit_not_ws c hc
    have hm : c ≠ '-' := by rintro rfl; simp [Char.isDigit] at hc
    have hp : c ≠ '+' := by rintro rfl; simp [Char.isDigit] at hc
    have ht : (c :: rest).takeWhile Char.isDigit = c :: rest := by
      rw [List.takeWhile_eq_self_iff]
      intro x hx
      rcases List.mem_cons.mp hx with hx | hx
      · exact hx ▸ hc
      · exact List.all_eq_true.mp hrest x hx
    simp only [List.dropWhile_cons, hw, Bool.false_eq_true, if_false]
    simp only [hm, hp, if_false, leadDigits, ht]
    simp only [List.isEmpty_cons, Bool.false_eq_true, if_false]
    exact ⟨_, rfl⟩

end Trybase

namespace Trybase

lemma digits_ne_empty (s : String) (h : isDigitString s = true) : s ≠ "" := by
  rintro rfl
  exact absurd h (by decide)

lemma toNum_digits (s : String) (h : isDigitString s = true) :
    ∃ n : Nat, toNum (some s) = .int n := by
  obtain ⟨n, hn⟩ := parseIntJS_digits s h
  exact ⟨n, by simp [toNum, digits_ne_empty s h, hn]⟩

lemma takeOf_bounds (v : JsNum) : 1 ≤ takeOf v ∧ takeOf v ≤ 100 := by
  cases v <;> simp [takeOf]
  split <;> omega

lemma skipOf_nonneg (p : JsNum) (t : Int) (ht : 0 ≤ t) : 0 ≤ skipOf p t := by
  cases p <;> simp [skipOf]
  split
  · next hcond => exact mul_nonneg (by omega) ht
  · omega

lemma process_bounds (q : LikesQuery) :
    0 ≤ (processLikesQueryParams q).skip ∧
    1 ≤ (processLikesQueryParams q).take ∧
    (processLikesQueryParams q).take ≤ 100 := by
  by_cases h : likesRevalidOk q
  · simp only [processLikesQueryParams, h, if_true]
    refine ⟨skipOf_nonneg _ _ ?_, (takeOf_bounds _).1, (takeOf_bounds _).2⟩
    exact le_trans (by omega) (takeOf_bounds (toNum q.limit)).1
  · simp only [processLikesQueryParams, h, Bool.false_eq_true, if_false]
    refine ⟨by omega, by omega, by omega⟩

end Trybase

namespace Trybase

/-- Claim-side take formula, following the claim wording: the parsed
limit when it is an integer in [1,100], else the default 10. -/
def claimTakeOf (limit : JsNum) : Int :=
  match limit with
  | .int n => if 1 ≤ n ∧ n ≤ 100 then n else 10
  | _ => 10

/-- Claim-side skip formula, following the claim wording:
(page - 1) * take when the parsed page is a positive integer, else 0. -/
def claimSkipOf (page : JsNum) (take : Int) : Int :=
  match page with
  | .int p => if 0 < p then (p - 1) * take else 0
  | _ => 0

lemma revalid_formulas (page limit : JsNum)
    (h : internalParamsOk (skipOf page (takeOf limit)) (takeOf limit) page limit = true) :
    takeOf limit = claimTakeOf limit ∧
    skipOf page (takeOf limit) = claimSkipOf page (claimTakeOf limit) := by
  unfold internalParamsOk at h
  rw [Bool.and_eq_true, Bool.and_eq_true, Bool.and_eq_true] at h
  obtain ⟨⟨⟨_, _⟩, hpage⟩, hlimit⟩ := h
  have htake : takeOf limit = claimTakeOf limit := by
    cases limit with
    | undef => rfl
    | nan => simp [zOptIntOk] at hlimit
    | int n =>
      simp only [zOptIntOk, Bool.and_eq_true, decide_eq_true_eq] at hlimit
      obtain ⟨h1, h2⟩ := hlimit
      simp only [takeOf, claimTakeOf]
      split <;> split <;> omega
  refine ⟨htake, ?_⟩
  rw [htake]
  cases page with
  | undef => rfl
  | nan => simp [zOptIntOk] at hpage
  | int p =>
    simp only [zOptIntOk, Bool.and_true, Bool.and_eq_true, decide_eq_true_eq] at hpage
    simp only [skipOf, claimSkipOf]
    rw [if_pos ⟨by omega, by omega⟩, if_pos (by omega)]

end Trybase

namespace Trybase

lemma followers_bounds (q : FollowersQuery) :
    0 ≤ (processFollowersQueryParams q).skip ∧
    1 ≤ (processFollowersQueryParams q).take ∧
    (processFollowersQueryParams q).take ≤ 100 := by
  by_cases h : followersRevalidOk q
  · simp only [processFollowersQueryParams, h, if_true]
    refine ⟨skipOf_nonneg _ _ ?_, (takeOf_bounds _).1, (takeOf_bounds _).2⟩
    exact le_trans (by omega) (takeOf_bounds (toNum q.limit)).1
  · simp only [processFollowersQueryParams, h, Bool.false_eq_true, if_false]
    refine ⟨by omega, by omega, by omega⟩

/-- C1 (amended): when the internal re-validation succeeds (the parsed
page, if present, is at least 1 and the parsed limit, if present, lies
in [1,100]), the per-entity query processor returns take equal to the
parsed limit when that parse yields an integer in [1,100] and 10
otherwise, and skip equal to (page - 1) * take when the parsed page is
a positive integer and 0 otherwise; the returned take always lies in
[1,100].  When re-validation fails the processor instead returns the
fallback skip = 0, take = 10 (see C2). -/
theorem claim1_amended_take_skip (q : LikesQuery) (r : FollowersQuery)
    (hq : likesRevalidOk q = true) (hr : followersRevalidOk r = true) :
    ((processLikesQueryParams q).take = claimTakeOf (toNum q.limit) ∧
     (processLikesQueryParams q).skip =
       claimSkipOf (toNum q.page) (claimTakeOf (toNum q.limit)) ∧
     1 ≤ (processLikesQueryParams q).take ∧ (processLikesQueryParams q).take ≤ 100) ∧
    ((processFollowersQueryParams r).take = claimTakeOf (toNum r.limit) ∧
     (processFollowersQueryParams r).skip =
       claimSkipOf (toNum r.page) (claimTakeOf (toNum r.limit)) ∧
     1 ≤ (processFollowersQueryParams r).take ∧ (processFollowersQueryParams r).take ≤ 100) := by
  have hq' := hq
  have hr' := hr
  unfold likesRevalidOk at hq'
  unfold followersRevalidOk at hr'
  have hfq := revalid_formulas (toNum q.page) (toNum q.limit) hq'
  have hfr := revalid_formulas (toNum r.page) (toNum r.limit) hr'
  constructor
  · simp only [processLikesQueryParams, hq, if_true]
    exact ⟨hfq.1, hfq.2, (process_bounds q).2.1.trans_eq (by simp [processLikesQueryParams, hq]),
      by simpa [processLikesQueryParams, hq] using (process_bounds q).2.2⟩
  · simp only [processFollowersQueryParams, hr, if_true]
    exact ⟨hfr.1, hfr.2, (followers_bounds r).2.1.trans_eq (by simp [processFollowersQueryParams, hr]),
      by simpa [processFollowersQueryParams, hr] using (followers_bounds r).2.2⟩

end Trybase

namespace Trybase

/-- Witness for C1 (amended) at page=3, limit=25 (likes) and page=2,
limit=5 (followers). -/
theorem claim1_amended_witness :
    ((processLikesQueryParams ⟨some "3", some "25", none, none⟩).take =
       claimTakeOf (toNum (some "25")) ∧
     (processLikesQueryParams ⟨some "3", some "25", none, none⟩).skip =
       claimSkipOf (toNum (some "3")) (claimTakeOf (toNum (some "25"))) ∧
     1 ≤ (processLikesQueryParams ⟨some "3", some "25", none, none⟩).take ∧
     (processLikesQueryParams ⟨some "3", some "25", none, none⟩).take ≤ 100) ∧
    ((processFollowersQueryParams ⟨some "2", some "5", none, none⟩).take =
       claimTakeOf (toNum (some "5")) ∧
     (processFollowersQueryParams ⟨some "2", some "5", none, none⟩).skip =
       claimSkipOf (toNum (some "2")) (claimTakeOf (toNum (some "5"))) ∧
     1 ≤ (processFollowersQueryParams ⟨some "2", some "5", none, none⟩).take ∧
     (processFollowersQueryParams ⟨some "2", some "5", none, none⟩).take ≤ 100) :=
  claim1_amended_take_skip ⟨some "3", some "25", none, none⟩ ⟨some "2", some "5", none, none⟩
    (by decide) (by decide)

/-- C1 counterexample: for the schema-valid list query page="0",
limit="50" the parsed limit is 50, an integer in [1,100], yet the
processor returns take = 10 (the re-validation fallback triggered by
page 0), not 50 as the claim requires. -/
theorem claim1_counterexample :
    toNum (some "50") = JsNum.int 50 ∧
    (processLikesQueryParams ⟨some "0", some "50", none, none⟩).take = 10 ∧
    (processLikesQueryParams ⟨some "0", some "50", none, none⟩).take ≠ 50 := by
  decide

/-- C2: the likes query processor is total and degrading: every input
yields integer skip ≥ 0 and take in [1,100], and whenever the internal
re-validation fails the result is exactly the fallback
where = empty, skip = 0, take = 10. -/
theorem claim2_processor_total (q : LikesQuery) :
    0 ≤ (processLikesQueryParams q).skip ∧
    1 ≤ (processLikesQueryParams q).take ∧
    (processLikesQueryParams q).take ≤ 100 ∧
    (likesRevalidOk q = false →
      processLikesQueryParams q = { whereClause := [], skip := 0, take := 10 }) := by
  refine ⟨(process_bounds q).1, (process_bounds q).2.1, (process_bounds q).2.2, fun h => ?_⟩
  simp [processLikesQueryParams, h]

/-- Witness for C2 at the malformed pair page="1", limit="200": the
re-validation fails (limit above 100) and the fallback is returned. -/
theorem claim2_witness :
    likesRevalidOk ⟨some "1", some "200", none, none⟩ = false ∧
    processLikesQueryParams ⟨some "1", some "200", none, none⟩ =
      { whereClause := [], skip := 0, take := 10 } :=
  ⟨by decide, (claim2_processor_total ⟨some "1", some "200", none, none⟩).2.2.2 (by decide)⟩

end Trybase

namespace Trybase

lemma searchPageOf_digits (s : String) (h : isDigitString s = true) :
    ∃ n : Nat, searchPageOf (some s) = .int n := by
  obtain ⟨n, hn⟩ := parseIntJS_digits s h
  exact ⟨n, by simp [searchPageOf, digits_ne_empty s h, hn]⟩

lemma searchLimitOf_digits (s : String) (h : isDigitString s = true) :
    ∃ n : Nat, searchLimitOf (some s) = .int n := by
  obtain ⟨n, hn⟩ := parseIntJS_digits s h
  exact ⟨n, by simp [searchLimitOf, digits_ne_empty s h, hn]⟩

/-- C3: in the search handler, page defaults to 1 and limit to 10 when
absent, take is the parsed limit clamped into [1,100] by min/max (so a
limit of 0 is clamped up to 1, not reset to 10), and
skip = (page - 1) * take. -/
theorem claim3_search_clamp (p l : Option String)
    (hp : digitRefineOk p = true) (hl : digitRefineOk l = true) :
    ∃ pn ln t : Int,
      searchPageOf p = JsNum.int pn ∧
      searchLimitOf l = JsNum.int ln ∧
      searchTakeOf l = JsNum.int t ∧
      1 ≤ t ∧ t ≤ 100 ∧
      (1 ≤ ln → ln ≤ 100 → t = ln) ∧
      (ln < 1 → t = 1) ∧
      (100 < ln → t = 100) ∧
      (p = none → pn = 1) ∧
      (l = none → ln = 10) ∧
      (l = some "0" → t = 1) ∧
      searchSkipOf p l = JsNum.int ((pn - 1) * t) := by
  obtain ⟨pn, hpn, hpnone⟩ :
      ∃ pn : Int, searchPageOf p = JsNum.int pn ∧ (p = none → pn = 1) := by
    cases p with
    | none => exact ⟨1, rfl, fun _ => rfl⟩
    | some s =>
      obtain ⟨n, hn⟩ := searchPageOf_digits s hp
      exact ⟨n, hn, fun h => Option.noConfusion h⟩
  obtain ⟨ln, hln, hlnone, hlzero⟩ :
      ∃ ln : Int, searchLimitOf l = JsNum.int ln ∧ (l = none → ln = 10) ∧
        (l = some "0" → ln = 0) := by
    cases l with
    | none => exact ⟨10, rfl, fun _ => rfl, fun h => Option.noConfusion h⟩
    | some s =>
      obtain ⟨n, hn⟩ := searchLimitOf_digits s hl
      refine ⟨n, hn, fun h => Option.noConfusion h, fun h => ?_⟩
      have h0 : searchLimitOf (some "0") = JsNum.int 0 := by decide
      rw [h, h0] at hn
      exact (JsNum.int.injEq _ _).mp hn.symm
  refine ⟨pn, ln, min (max ln 1) 100, hpn, hln, ?_, ?_, ?_, ?_, ?_, ?_, hpnone, hlnone, ?_, ?_⟩
  · simp [searchTakeOf, hln, jsMax, jsMin]
  · omega
  · omega
  · intro h1 h2; omega
  · intro h1; omega
  · intro h1; omega
  · intro h
    have := hlzero h
    omega
  · simp [searchSkipOf, searchTakeOf, hpn, hln, jsSub, jsMul, jsMax, jsMin]

/-- Witness for C3 at an absent page and the limit string "0": take is
clamped to 1 and skip = (1 - 1) * 1 = 0. -/
theorem claim3_witness :
    ∃ pn ln t : Int,
      searchPageOf none = JsNum.int pn ∧
      searchLimitOf (some "0") = JsNum.int ln ∧
      searchTakeOf (some "0") = JsNum.int t ∧
      1 ≤ t ∧ t ≤ 100 ∧
      (1 ≤ ln → ln ≤ 100 → t = ln) ∧
      (ln < 1 → t = 1) ∧
      (100 < ln → t = 100) ∧
      ((none : Option String) = none → pn = 1) ∧
      (some "0" = (none : Option String) → ln = 10) ∧
      (some "0" = some "0" → t = 1) ∧
      searchSkipOf none (some "0") = JsNum.int ((pn - 1) * t) :=
  claim3_search_clamp none (some "0") (by decide) (by decide)

end Trybase

namespace Trybase

lemma floorDiv_bounds (s t : Int) (ht : 1 ≤ t) :
    (mathFloorDiv s t + 1 - 1) * t ≤ s ∧ s < (mathFloorDiv s t + 1) * t := by
  have hte : mathFloorDiv s t = s / t := Int.fdiv_eq_ediv s (by omega)
  constructor
  · rw [hte]
    simpa using Int.ediv_mul_le s (by omega : t ≠ 0)
  · rw [hte]
    exact Int.lt_ediv_add_one_mul_self s (by omega)

lemma ceilDiv_bounds (total t : Int) (ht : 1 ≤ t) :
    total ≤ mathCeilDiv total t * t ∧ mathCeilDiv total t * t < total + t := by
  have hte : Int.fdiv (-total) t = (-total) / t := Int.fdiv_eq_ediv (-total) (by omega)
  have h1 : (-total) / t * t ≤ -total := Int.ediv_mul_le (-total) (by omega : t ≠ 0)
  have h2 : -total < ((-total) / t + 1) * t := Int.lt_ediv_add_one_mul_self (-total) (by omega)
  rw [add_mul, one_mul] at h2
  unfold mathCeilDiv
  rw [hte]
  constructor
  · have := neg_le_neg h1
    simpa [neg_mul] using this
  · have := neg_lt_neg h2
    rw [neg_add] at this
    nlinarith [this]

/-- C4: in the pagination envelope built by the list handlers,
meta.page is the floor-division page number for the skip/take produced
by the query processor (it satisfies (page-1)*take ≤ skip < page*take)
and meta.totalPages is the ceiling of total/take (the least multiple
bound: total ≤ totalPages*take < total + take); in particular
total = 25, take = 10 gives totalPages = 3. -/
theorem claim4_list_meta (q : LikesQuery) (total : Int) (_htot : 0 ≤ total) :
    ((listMetaOf total (processLikesQueryParams q).skip (processLikesQueryParams q).take).page - 1) *
        (processLikesQueryParams q).take ≤ (processLikesQueryParams q).skip ∧
    (processLikesQueryParams q).skip <
      (listMetaOf total (processLikesQueryParams q).skip (processLikesQueryParams q).take).page *
        (processLikesQueryParams q).take ∧
    total ≤
      (listMetaOf total (processLikesQueryParams q).skip (processLikesQueryParams q).take).totalPages *
        (processLikesQueryParams q).take ∧
    (listMetaOf total (processLikesQueryParams q).skip (processLikesQueryParams q).take).totalPages *
        (processLikesQueryParams q).take < total + (processLikesQueryParams q).take ∧
    (listMetaOf 25 0 10).totalPages = 3 := by
  obtain ⟨hs, ht1, ht2⟩ := process_bounds q
  have hf := floorDiv_bounds (processLikesQueryParams q).skip (processLikesQueryParams q).take ht1
  have hc := ceilDiv_bounds total (processLikesQueryParams q).take ht1
  exact ⟨by simpa [listMetaOf] using hf.1, by simpa [listMetaOf] using hf.2,
    by simpa [listMetaOf] using hc.1, by simpa [listMetaOf] using hc.2, by decide⟩

/-- Witness for C4 at the empty query (skip 0, take 10) and total 25. -/
theorem claim4_witness :
    ((listMetaOf 25 (processLikesQueryParams ⟨none, none, none, none⟩).skip
        (processLikesQueryParams ⟨none, none, none, none⟩).take).page - 1) *
        (processLikesQueryParams ⟨none, none, none, none⟩).take ≤
      (processLikesQueryParams ⟨none, none, none, none⟩).skip ∧
    (processLikesQueryParams ⟨none, none, none, none⟩).skip <
      (listMetaOf 25 (processLikesQueryParams ⟨none, none, none, none⟩).skip
        (processLikesQueryParams ⟨none, none, none, none⟩).take).page *
        (processLikesQueryParams ⟨none, none, none, none⟩).take ∧
    (25 : Int) ≤
      (listMetaOf 25 (processLikesQueryParams ⟨none, none, none, none⟩).skip
        (processLikesQueryParams ⟨none, none, none, none⟩).take).totalPages *
        (processLikesQueryParams ⟨none, none, none, none⟩).take ∧
    (listMetaOf 25 (processLikesQueryParams ⟨none, none, none, none⟩).skip
        (processLikesQueryParams ⟨none, none, none, none⟩).take).totalPages *
        (processLikesQueryParams ⟨none, none, none, none⟩).take < 25 +
      (processLikesQueryParams ⟨none, none, none, none⟩).take ∧
    (listMetaOf 25 0 10).totalPages = 3 :=
  claim4_list_meta ⟨none, none, none, none⟩ 25 (by decide)

end Trybase

namespace Trybase

lemma lookup_whereOf_name (n : String) (hn : n ≠ "") (d : Option String) :
    List.lookup "name" (likesWhereOf (some n) d) = some ⟨n, true⟩ := by
  simp [likesWhereOf, hn, List.lookup]

lemma lookup_whereOf_name_none (d : Option String) :
    ∀ nm : Option String, (nm = none ∨ nm = some "") →
      List.lookup "name" (likesWhereOf nm d) = none := by
  intro nm hnm
  rcases hnm with h1 | h1 <;> subst h1 <;>
    cases d with
    | none => simp [likesWhereOf, List.lookup]
    | some dd =>
      by_cases hd : dd = "" <;> simp [likesWhereOf, hd, List.lookup]

lemma lookup_whereOf_desc (dd : String) (hd : dd ≠ "") (nm : Option String) :
    List.lookup "description" (likesWhereOf nm (some dd)) = some ⟨dd, true⟩ := by
  cases nm with
  | none => simp [likesWhereOf, hd, List.lookup]
  | some n => by_cases hn : n = "" <;> simp [likesWhereOf, hd, hn, List.lookup]

lemma lookup_whereOf_desc_none (nm : Option String) :
    ∀ d : Option String, (d = none ∨ d = some "") →
      List.lookup "description" (likesWhereOf nm d) = none := by
  intro d hdm
  rcases hdm with h1 | h1 <;> subst h1 <;>
    cases nm with
    | none => simp [likesWhereOf, List.lookup]
    | some n => by_cases hn : n = "" <;> simp [likesWhereOf, hn, List.lookup]

lemma whereOf_keys (nm d : Option String) (k : String) (c : ContainsCond)
    (h : (k, c) ∈ likesWhereOf nm d) :
    (k = "name" ∨ k = "description") ∧ c.insensitive = true := by
  unfold likesWhereOf at h
  rcases List.mem_append.mp h with h | h
  · cases nm with
    | none => simp at h
    | some n =>
      split at h
      · simp at h
        exact ⟨Or.inl h.2.1, by rw [h.2.2]⟩
      · simp at h
  · cases d with
    | none => simp at h
    | some dd =>
      split at h
      · simp at h
        exact ⟨Or.inr h.2.1, by rw [h.2.2]⟩
      · simp at h

end Trybase

namespace Trybase

/-- C5 counterexample: with the text filter name supplied as the empty
string (a value the list schema accepts), the input has a present name
filter yet the returned where object has no name key at all. -/
theorem claim5_counterexample :
    (LikesQuery.mk none none (some "") none).name.isSome = true ∧
    List.lookup "name"
      (processLikesQueryParams ⟨none, none, some "", none⟩).whereClause = none := by
  decide

/-- C5 (amended): when the internal re-validation succeeds, the where
object contains exactly a case-insensitive contains condition for each
text filter supplied with a non-empty value, contains no key for a
filter that is absent or supplied empty, and contains no other keys;
when re-validation fails all filters are dropped. -/
theorem claim5_amended_where (q : LikesQuery) (h : likesRevalidOk q = true) :
    (∀ s, q.name = some s → s ≠ "" →
      List.lookup "name" (processLikesQueryParams q).whereClause = some ⟨s, true⟩) ∧
    (q.name = none ∨ q.name = some "" →
      List.lookup "name" (processLikesQueryParams q).whereClause = none) ∧
    (∀ s, q.description = some s → s ≠ "" →
      List.lookup "description" (processLikesQueryParams q).whereClause = some ⟨s, true⟩) ∧
    (q.description = none ∨ q.description = some "" →
      List.lookup "description" (processLikesQueryParams q).whereClause = none) ∧
    (∀ k c, (k, c) ∈ (processLikesQueryParams q).whereClause →
      (k = "name" ∨ k = "description") ∧ c.insensitive = true) := by
  have hw : (processLikesQueryParams q).whereClause = likesWhereOf q.name q.description := by
    simp [processLikesQueryParams, h]
  rw [hw]
  refine ⟨?_, ?_, ?_, ?_, ?_⟩
  · intro s hs hne
    rw [hs]
    exact lookup_whereOf_name s hne q.description
  · exact lookup_whereOf_name_none q.description q.name
  · intro s hs hne
    rw [hs]
    exact lookup_whereOf_desc s hne q.name
  · exact lookup_whereOf_desc_none q.name q.description
  · exact fun k c => whereOf_keys q.name q.description k c

/-- Witness for C5 (amended) at name = "rust", description absent. -/
theorem claim5_amended_witness :
    List.lookup "name"
      (processLikesQueryParams ⟨none, none, some "rust", none⟩).whereClause =
      some ⟨"rust", true⟩ ∧
    List.lookup "description"
      (processLikesQueryParams ⟨none, none, some "rust", none⟩).whereClause = none :=
  ⟨(claim5_amended_where ⟨none, none, some "rust", none⟩ (by decide)).1 "rust" rfl (by decide),
   (claim5_amended_where ⟨none, none, some "rust", none⟩ (by decide)).2.2.2.1 (Or.inl rfl)⟩

/-- C6 evaluation: when the findUnique call of the get-by-id handler
throws, the response keeps the default 200 status (the catch branch
never calls c.status(500)), contradicting the specified 500. -/
theorem claim6_get_by_id_status :
    (hashtagsGetById (.raisedError "connection refused")).1 = 200 ∧
    (hashtagsGetById (.raisedError "connection refused")).1 ≠ 500 := by
  decide

end Trybase

namespace Trybase

/-- C7: a search request whose query parameter is missing or empty is
rejected with HTTP 400 by the validation layer; no storage call is
issued. -/
theorem claim7_empty_query_rejected (r : SearchQueryRaw)
    (h : r.query = none ∨ r.query = some "") :
    hashtagsSearchRoute r = .badRequest 400 := by
  obtain ⟨qv, p, l⟩ := r
  rcases h with h | h <;> simp only at h <;> subst h <;>
    simp [hashtagsSearchRoute, searchSchemaOk]

/-- Witness for C7 at a missing query parameter. -/
theorem claim7_witness :
    hashtagsSearchRoute ⟨none, some "1", none⟩ = .badRequest 400 :=
  claim7_empty_query_rejected ⟨none, some "1", none⟩ (Or.inl rfl)

/-- C8: in the hashtags and likes routers the GET /:id route is
registered before GET /search, so under in-registration-order dispatch
every single-segment GET path — the literal segment "search" included —
is handled by the get-by-id handler with that segment captured as id,
and the search handler is never selected. -/
theorem claim8_route_order :
    (∀ seg : String,
      dispatchFirst hashtagsRouteList .get (some seg) =
        some (.getById, some seg) ∧
      dispatchFirst likesRouteList .get (some seg) =
        some (.getById, some seg)) ∧
    List.findIdx (fun r => r.handler == HandlerTag.getById) hashtagsRouteList <
      List.findIdx (fun r => r.handler == HandlerTag.searchOp) hashtagsRouteList ∧
    List.findIdx (fun r => r.handler == HandlerTag.getById) likesRouteList <
      List.findIdx (fun r => r.handler == HandlerTag.searchOp) likesRouteList := by
  refine ⟨fun seg => ⟨?_, ?_⟩, by decide, by decide⟩ <;> rfl

end Trybase

namespace Trybase

lemma searchTake_int (l : Option String) (hl : digitRefineOk l = true) :
    ∃ t : Int, searchTakeOf l = JsNum.int t ∧ 1 ≤ t ∧ t ≤ 100 := by
  obtain ⟨ln, hln⟩ : ∃ ln : Int, searchLimitOf l = JsNum.int ln := by
    cases l with
    | none => exact ⟨10, rfl⟩
    | some s =>
      obtain ⟨n, hn⟩ := searchLimitOf_digits s hl
      exact ⟨n, hn⟩
  exact ⟨min (max ln 1) 100, by simp [searchTakeOf, hln, jsMax, jsMin], by omega, by omega⟩

/-- C9: for a search request whose page parameter is the digit string
"0" (accepted by the search schema), the handler computes
skip = (0 - 1) * take = -take, a negative offset, and passes it
unchanged to the storage findMany call; skip is not nonnegative on the
search path. -/
theorem claim9_negative_skip (l : Option String) (hl : digitRefineOk l = true) :
    ∃ t : Int, 1 ≤ t ∧
      searchTakeOf l = JsNum.int t ∧
      searchSkipOf (some "0") l = JsNum.int ((0 - 1) * t) ∧
      (0 - 1) * t < 0 ∧
      (∀ qs : String, 1 ≤ qs.length →
        hashtagsSearchRoute ⟨some qs, some "0", l⟩ =
          .storageFindMany (JsNum.int ((0 - 1) * t)) (JsNum.int t) qs) := by
  obtain ⟨t, ht, ht1, _⟩ := searchTake_int l hl
  have hpage : searchPageOf (some "0") = JsNum.int 0 := by decide
  have hskip : searchSkipOf (some "0") l = JsNum.int ((0 - 1) * t) := by
    simp [searchSkipOf, hpage, ht, jsSub, jsMul]
  refine ⟨t, ht1, ht, hskip, by omega, fun qs hqs => ?_⟩
  have hok : searchSchemaOk ⟨some qs, some "0", l⟩ = true := by
    have h0 : digitRefineOk (some "0") = true := by decide
    simp [searchSchemaOk, hqs, hl, h0]
  simp [hashtagsSearchRoute, hok, hskip, ht]

/-- Witness for C9 with the limit parameter absent: take is 10 and the
storage call receives skip = -10. -/
theorem claim9_witness :
    ∃ t : Int, 1 ≤ t ∧
      searchTakeOf none = JsNum.int t ∧
      searchSkipOf (some "0") none = JsNum.int ((0 - 1) * t) ∧
      (0 - 1) * t < 0 ∧
      (∀ qs : String, 1 ≤ qs.length →
        hashtagsSearchRoute ⟨some qs, some "0", none⟩ =
          .storageFindMany (JsNum.int ((0 - 1) * t)) (JsNum.int t) qs) :=
  claim9_negative_skip none (by decide)

/-- C10: a text filter supplied as the empty string is treated as
absent by the likes and followers query processors: the returned where
object has no key for it. -/
theorem claim10_empty_filter_absent (q : LikesQuery) (r : FollowersQuery) :
    (q.name = some "" →
      List.lookup "name" (processLikesQueryParams q).whereClause = none) ∧
    (q.description = some "" →
      List.lookup "description" (processLikesQueryParams q).whereClause = none) ∧
    (r.name = some "" →
      List.lookup "name" (processFollowersQueryParams r).whereClause = none) ∧
    (r.description = some "" →
      List.lookup "description" (processFollowersQueryParams r).whereClause = none) := by
  have hq : (processLikesQueryParams q).whereClause = likesWhereOf q.name q.description ∨
      (processLikesQueryParams q).whereClause = [] := by
    by_cases h : likesRevalidOk q
    · exact Or.inl (by simp [processLikesQueryParams, h])
    · exact Or.inr (by simp [processLikesQueryParams, h])
  have hrw : (processFollowersQueryParams r).whereClause = likesWhereOf r.name r.description ∨
      (processFollowersQueryParams r).whereClause = [] := by
    by_cases h : followersRevalidOk r
    · exact Or.inl (by simp [processFollowersQueryParams, h])
    · exact Or.inr (by simp [processFollowersQueryParams, h])
  refine ⟨fun h1 => ?_, fun h2 => ?_, fun h3 => ?_, fun h4 => ?_⟩
  · rcases hq with hw | hw <;> rw [hw]
    · exact lookup_whereOf_name_none q.description q.name (Or.inr h1)
    · rfl
  · rcases hq with hw | hw <;> rw [hw]
    · exact lookup_whereOf_desc_none q.name q.description (Or.inr h2)
    · rfl
  · rcases hrw with hw | hw <;> rw [hw]
    · exact lookup_whereOf_name_none r.description r.name (Or.inr h3)
    · rfl
  · rcases hrw with hw | hw <;> rw [hw]
    · exact lookup_whereOf_desc_none r.name r.description (Or.inr h4)
    · rfl

/-- Witness for C10 at empty-string name and description filters. -/
theorem claim10_witness :
    List.lookup "name"
      (processLikesQueryParams ⟨none, none, some "", some ""⟩).whereClause = none ∧
    List.lookup "description"
      (processLikesQueryParams ⟨none, none, some "", some ""⟩).whereClause = none ∧
    List.lookup "name"
      (processFollowersQueryParams ⟨none, none, some "", some ""⟩).whereClause = none ∧
    List.lookup "description"
      (processFollowersQueryParams ⟨none, none, some "", some ""⟩).whereClause = none := by
  obtain ⟨a, b, c, d⟩ :=
    claim10_empty_filter_absent ⟨none, none, some "", some ""⟩ ⟨none, none, some "", some ""⟩
  exact ⟨a rfl, b rfl, c rfl, d rfl⟩

end Trybase
